import Mathlib

/-!
Verification of the IQR outlier-removal transform and the high-correlation
pair extraction of the `predicting_heart_disease` repository, shallowly
embedded from `src/utils/preprocessing.py` and
`src/utils/visualization/correlation.py`.

A dataset is a list of rows; a row is an association list from column name
to cell.  A cell is `some q` for a numeric value and `none` for a missing
value (pandas `NaN`).  Numeric values are modelled as rationals.
-/

namespace HeartDisease

/-- A cell of a data frame: `some q` is a numeric value, `none` is `NaN`. -/
abbrev Cell := Option ℚ

/-- A row of a data frame: an association list from column name to cell. -/
abbrev Row := List (String × Cell)

/-- Value of column `c` in row `r`; an absent column behaves like `NaN`. -/
def getVal (r : Row) (c : String) : Option ℚ :=
  match r.lookup c with
  | some v => v
  | none => none

/-- Row `r` has a cell for column `c` (present, possibly `NaN`). -/
def hasCol (r : Row) (c : String) : Bool :=
  (r.lookup c).isSome

/-- Every row of `df` has a cell for every column in `cols`. -/
def hasCols (cols : List String) (df : List Row) : Bool :=
  df.all fun r => cols.all fun c => hasCol r c

/-- Non-missing values of column `c` of `df`, in row order.  pandas
`Series.quantile` drops `NaN` entries before computing quantiles. -/
def columnValues (df : List Row) (c : String) : List ℚ :=
  df.filterMap (fun r => getVal r c)

/-- Insert a value into a sorted list of rationals, keeping it sorted. -/
def insertSorted (x : ℚ) : List ℚ → List ℚ
  | [] => [x]
  | y :: ys => if x ≤ y then x :: y :: ys else y :: insertSorted x ys

/-- Sort a list of rationals into ascending order (insertion sort, chosen
for kernel reducibility; any correct sort yields the same list). -/
def sortValues : List ℚ → List ℚ
  | [] => []
  | x :: xs => insertSorted x (sortValues xs)

/-- Floor of a nonnegative rational as a natural number (for a rational
`x ≥ 0`, this equals `⌊x⌋`). -/
def ratFloorNat (x : ℚ) : ℕ :=
  x.num.toNat / x.den

/-- Linear-interpolation quantile of a list of values, the default
`interpolation="linear"` of pandas `Series.quantile`: sort the `n` values,
take `h = (n-1)*q`, and interpolate between positions `⌊h⌋` and `⌊h⌋+1`.
For an empty list pandas yields `NaN`; that branch is unreachable under the
spec's constraint that fitted columns support quantile computation, and is
given the junk value `0` here. -/
def quantile (xs : List ℚ) (q : ℚ) : ℚ :=
  let sorted := sortValues xs
  let n := sorted.length
  if n = 0 then 0
  else
    let h : ℚ := ((n : ℚ) - 1) * q
    let i : ℕ := ratFloorNat h
    let lo := sorted.getD i 0
    let hi := sorted.getD (i + 1) lo
    lo + (h - (i : ℚ)) * (hi - lo)

/-- Per-column statistics stored in `stats_`, one record per selected
column: the row of the `stats_` data frame built by `fit`. -/
structure ColStats where
  Q1 : ℚ
  Q3 : ℚ
  IQR : ℚ
  lower_cutoff : ℚ
  upper_cutoff : ℚ
deriving DecidableEq, Repr

/-- The statistics `fit` derives for one column from its non-missing
values: `Q1`, `Q3`, `IQR = Q3 - Q1`, `lower_cutoff = Q1 - 1.5*IQR`,
`upper_cutoff = Q3 + 1.5*IQR`. -/
def computeStats (xs : List ℚ) : ColStats :=
  let q1 := quantile xs (1/4)
  let q3 := quantile xs (3/4)
  let iqr := q3 - q1
  { Q1 := q1
    Q3 := q3
    IQR := iqr
    lower_cutoff := q1 - 3/2 * iqr
    upper_cutoff := q3 + 3/2 * iqr }

/-- The `numerical_columns` argument of `fit`: either a single column name
or a list of names (the `isinstance(numerical_columns, str)` branch). -/
inductive ColumnsArg where
  | single (c : String)
  | multiple (cs : List String)

/-- Normalization done at the top of `fit`: a single name becomes a
one-element list. -/
def normalizeColumns : ColumnsArg → List String
  | .single c => [c]
  | .multiple cs => cs

/-- The fitted state of `OutlierRemoverIQR`: the attributes
`numerical_columns_` and `stats_` set by `fit`. -/
structure FittedState where
  numerical_columns_ : List String
  stats_ : List (String × ColStats)
deriving DecidableEq, Repr

/-- `OutlierRemoverIQR.fit`: normalizes the column argument and computes
the per-column statistics from the reference data frame. -/
def fit (df : List Row) (numerical_columns : ColumnsArg) : FittedState :=
  let cols := normalizeColumns numerical_columns
  { numerical_columns_ := cols
    stats_ := cols.map (fun c => (c, computeStats (columnValues df c))) }

/-- Statistics of column `c` in the fitted state; the default is
unreachable for states produced by `fit`, whose `stats_` is indexed by
exactly the selected columns. -/
def statsFor (s : FittedState) (c : String) : ColStats :=
  (s.stats_.lookup c).getD ⟨0, 0, 0, 0, 0⟩

/-- One cell of the mask `df[cols] >= stats_["lower_cutoff"]`: a `NaN`
cell compares as `False` in pandas. -/
def geMask (s : FittedState) (r : Row) (c : String) : Bool :=
  match getVal r c with
  | some v => decide ((statsFor s c).lower_cutoff ≤ v)
  | none => false

/-- One cell of the mask `df[cols] <= stats_["upper_cutoff"]`: a `NaN`
cell compares as `False` in pandas. -/
def leMask (s : FittedState) (r : Row) (c : String) : Bool :=
  match getVal r c with
  | some v => decide (v ≤ (statsFor s c).upper_cutoff)
  | none => false

/-- One row of `final_mask = masks.all(axis=1)`: the conjunction over the
selected columns of the two range masks. -/
def rowMask (s : FittedState) (r : Row) : Bool :=
  s.numerical_columns_.all (fun c => geMask s r c && leMask s r c)

/-- `OutlierRemoverIQR.transform`: `df[final_mask]`, boolean selection of
the rows whose combined mask is true. -/
def transform (s : FittedState) (df : List Row) : List Row :=
  df.filter (fun r => rowMask s r)

/-- Error raised when `transform` is called on an estimator that was never
fitted: in Python, accessing the attribute `numerical_columns_` set only by
`fit` raises `AttributeError` naming the fitted attribute, the "not
fitted" condition of the sklearn fit/transform contract. -/
inductive TransformError where
  | notFitted
deriving DecidableEq, Repr

/-- A call of the `transform` method on an estimator object whose state is
`none` before any `fit` and `some s` after a `fit` that produced `s`. -/
def transformCall (st : Option FittedState) (df : List Row) :
    Except TransformError (List Row) :=
  match st with
  | none => .error .notFitted
  | some s => .ok (transform s df)

/-- A call of the `fit` method as a transition on the estimator object's
state: the attributes are recomputed from the arguments alone and the
previous state is discarded. -/
def fitCall (_prev : Option FittedState) (df : List Row)
    (numerical_columns : ColumnsArg) : Option FittedState :=
  some (fit df numerical_columns)

/-- A call of the `transform` method as a transition on the estimator
object's state paired with its result: `transform` only reads the fitted
attributes. -/
def transformStep (st : Option FittedState) (df : List Row) :
    Option FittedState × Except TransformError (List Row) :=
  (st, transformCall st df)

/-- A precomputed correlation matrix as consumed by
`plot_high_correlation_scatter`: the column labels and the positionally
indexed entries (`correlation_matrix.iloc[i, j]`). -/
structure CorrMatrix where
  columns : List String
  entry : ℕ → ℕ → ℚ

/-- The `corr_pairs` accumulation loop of `plot_high_correlation_scatter`:
`for i in range(len(cols)): for j in range(i+1, len(cols)):` appending
`(cols[i], cols[j], val)` whenever `abs(val) >= threshold`. -/
def corr_pairs (cm : CorrMatrix) (threshold : ℚ) : List (String × String × ℚ) :=
  (List.range cm.columns.length).flatMap (fun i =>
    (List.range' (i + 1) (cm.columns.length - (i + 1))).filterMap (fun j =>
      if |cm.entry i j| ≥ threshold then
        some (cm.columns.getD i "", cm.columns.getD j "", cm.entry i j)
      else none))

/-- Return value of `plot_high_correlation_scatter`: the accumulated
pairs, with the early `return []` when no pair meets the threshold (the
plotting in between draws figures and does not touch `corr_pairs`). -/
def plot_high_correlation_scatter (cm : CorrMatrix) (threshold : ℚ) :
    List (String × String × ℚ) :=
  let ps := corr_pairs cm threshold
  if ps.isEmpty then [] else ps

/-- The strict upper triangle of an `n × n` matrix, enumerated row-major:
all index pairs `(i, j)` with `i < j < n`, rows in order. -/
def upperTrianglePairs (n : ℕ) : List (ℕ × ℕ) :=
  (List.range n).flatMap (fun i =>
    (List.range' (i + 1) (n - (i + 1))).map (fun j => (i, j)))

/-- A one-numeric-column row, used for concrete scenarios. -/
def mkRowX (v : ℚ) : Row := [("x", some v)]

/-- The reference dataset of the spec's cutoff-formula scenario: a single
column `x` with values `[1,2,3,4,5,6,7,8,9,100]`. -/
def dfTen : List Row := ([1, 2, 3, 4, 5, 6, 7, 8, 9, 100] : List ℚ).map mkRowX

/-- Fitted state with integer cutoffs used for concrete witnesses. -/
def sInt : FittedState :=
  ⟨["x", "y"], [("x", ⟨3, 7, 4, -3, 13⟩), ("y", ⟨0, 10, 10, -15, 25⟩)]⟩

/-- A row within range on both selected columns of `sInt`. -/
def rowGood : Row := [("x", some 5), ("y", some 20)]

/-- A row within range on `x` but above the `y` upper cutoff of `sInt`. -/
def rowBadY : Row := [("x", some 5), ("y", some 30)]

/-- A row with a missing value on the selected column `y`. -/
def rowMissY : Row := [("x", some 5), ("y", none)]

/-- A small concrete dataset over columns `x` and `y`. -/
def dfInt : List Row := [rowGood, rowBadY, rowMissY]

/-- A concrete 2×2 correlation matrix with no off-diagonal correlation. -/
def cmId : CorrMatrix := ⟨["a", "b"], fun i j => if i = j then 1 else 0⟩

end HeartDisease


namespace HeartDisease

/-- Filtering twice by the same predicate filters once. -/
lemma filter_idem {α : Type} (p : α → Bool) (l : List α) :
    (l.filter p).filter p = l.filter p := by
  induction l with
  | nil => rfl
  | cons a l ih => by_cases h : p a <;> simp [List.filter_cons, h, ih]

/-- Multiplicity of an element in a filtered list. -/
lemma count_filter_eq {α : Type} [BEq α] [LawfulBEq α] (p : α → Bool) (l : List α) (a : α) :
    (l.filter p).count a = if p a then l.count a else 0 := by
  induction l with
  | nil => simp
  | cons b l ih =>
    by_cases hb : p b <;> by_cases e : a = b
    · subst e; simp [List.filter_cons, hb, List.count_cons, ih]
    · simp [List.filter_cons, hb, List.count_cons, e, ih]
    · subst e; simp [List.filter_cons, hb, List.count_cons, ih]
    · simp [List.filter_cons, hb, List.count_cons, e, ih]

/-- The combined keep decision holds exactly when every selected column
holds a non-missing value within its own inclusive cutoff range. -/
lemma rowMask_eq_true_iff (s : FittedState) (r : Row) :
    rowMask s r = true ↔
      ∀ c ∈ s.numerical_columns_, ∃ v, getVal r c = some v ∧
        (statsFor s c).lower_cutoff ≤ v ∧ v ≤ (statsFor s c).upper_cutoff := by
  rw [rowMask, List.all_eq_true]
  constructor
  · intro h c hc
    have hm := h c hc
    cases hv : getVal r c with
    | none => simp [geMask, hv] at hm
    | some v =>
      simp [geMask, leMask, hv] at hm
      exact ⟨v, rfl, hm.1, hm.2⟩
  · intro h c hc
    obtain ⟨v, hv, h1, h2⟩ := h c hc
    simp [geMask, leMask, hv, h1, h2]

end HeartDisease

namespace HeartDisease

/-- C1: for every fitted state and every input dataset containing the
selected columns, `transform` returns exactly the input rows whose
combined keep decision (`rowMask`) is true, as a subsequence of the
input: no row is added, surviving rows keep their original relative
order, and each surviving row is an unchanged input row, so it keeps all
of the input's columns (not only the selected ones) with their values. -/
theorem transform_exact_subsequence (s : FittedState) (df : List Row)
    (_hcols : hasCols s.numerical_columns_ df = true) :
    (transform s df).Sublist df ∧
    (∀ r : Row, r ∈ transform s df ↔ r ∈ df ∧ rowMask s r = true) ∧
    (∀ r : Row, (transform s df).count r = if rowMask s r then df.count r else 0) := by
  refine ⟨?_, ?_, ?_⟩
  · simp only [transform]
    exact List.filter_sublist (p := fun r => rowMask s r) df
  · intro r; simp [transform, List.mem_filter]
  · intro r; simpa [transform] using count_filter_eq (fun r => rowMask s r) df r

/-- C1 witness at a concrete fitted state and dataset. -/
theorem transform_exact_subsequence_witness :
    (transform sInt dfInt).Sublist dfInt ∧
    (∀ r : Row, r ∈ transform sInt dfInt ↔ r ∈ dfInt ∧ rowMask sInt r = true) ∧
    (∀ r : Row, (transform sInt dfInt).count r
        = if rowMask sInt r then dfInt.count r else 0) :=
  transform_exact_subsequence sInt dfInt (by decide)

/-- C2: the keep decision for a row is the conjunction over the selected
columns of an inclusive range check of the row's value against that
column's own cutoffs; consequently a row that is in range on one selected
column but violates the cutoff range on another is excluded from the
result of `transform`. -/
theorem keep_decision_and_semantics (s : FittedState) (r : Row) :
    (rowMask s r = true ↔
      ∀ c ∈ s.numerical_columns_, ∃ v, getVal r c = some v ∧
        (statsFor s c).lower_cutoff ≤ v ∧ v ≤ (statsFor s c).upper_cutoff) ∧
    (∀ (df : List Row) (c₁ c₂ : String) (v₁ v₂ : ℚ),
      c₁ ∈ s.numerical_columns_ → c₂ ∈ s.numerical_columns_ →
      getVal r c₁ = some v₁ →
      (statsFor s c₁).lower_cutoff ≤ v₁ → v₁ ≤ (statsFor s c₁).upper_cutoff →
      getVal r c₂ = some v₂ →
      (v₂ < (statsFor s c₂).lower_cutoff ∨ (statsFor s c₂).upper_cutoff < v₂) →
      r ∉ transform s df) := by
  refine ⟨rowMask_eq_true_iff s r, ?_⟩
  intro df c₁ c₂ v₁ v₂ hc₁ hc₂ hv₁ hlo₁ hhi₁ hv₂ hviol hmem
  rw [transform, List.mem_filter] at hmem
  obtain ⟨v, hv, h1, h2⟩ := (rowMask_eq_true_iff s r).1 hmem.2 c₂ hc₂
  rw [hv₂] at hv
  injection hv with hv
  subst hv
  rcases hviol with h | h <;> linarith

/-- C2 witness: `rowBadY` is in range on `x` and violates only the `y`
range, and is excluded. -/
theorem keep_decision_and_semantics_witness : rowBadY ∉ transform sInt dfInt :=
  (keep_decision_and_semantics sInt rowBadY).2 dfInt "x" "y" 5 30
    (by decide) (by decide) rfl (by decide) (by decide) rfl (Or.inr (by decide))

/-- C3: fitting on the single column `x` with values
`[1,2,3,4,5,6,7,8,9,100]` yields the linearly interpolated percentiles
Q1 = 3.25 and Q3 = 7.75, hence IQR = 4.5, lower cutoff -3.5 and upper
cutoff 14.5, and transforming the same dataset drops exactly the row with
value 100, keeping the nine other rows in order. -/
theorem fit_transform_ten_values_scenario :
    statsFor (fit dfTen (ColumnsArg.multiple ["x"])) "x"
      = ⟨3.25, 7.75, 4.5, -3.5, 14.5⟩ ∧
    transform (fit dfTen (ColumnsArg.multiple ["x"])) dfTen
      = ([1, 2, 3, 4, 5, 6, 7, 8, 9] : List ℚ).map mkRowX := by
  have hstats : fit dfTen (.multiple ["x"])
      = ⟨["x"], [("x", ⟨3.25, 7.75, 4.5, -3.5, 14.5⟩)]⟩ := by
    norm_num [fit, normalizeColumns, computeStats, quantile, sortValues, insertSorted,
      ratFloorNat, dfTen, mkRowX, columnValues, getVal]
    simp
    norm_num
  constructor
  · rw [hstats]
    rfl
  · rw [hstats]
    norm_num [transform, rowMask, geMask, leMask, statsFor, dfTen, mkRowX, getVal,
      List.filter, List.lookup]

/-- C4: for a fixed fitted state, `transform` is idempotent: filtering an
already-filtered dataset removes no further rows. -/
theorem transform_idem (s : FittedState) (df : List Row) :
    transform s (transform s df) = transform s df :=
  filter_idem (fun r => rowMask s r) df

/-- C5: fitting with an empty collection of column names yields a state
whose `transform` keeps every row of any dataset unchanged: the
conjunction over zero selected columns is vacuously true. -/
theorem transform_after_empty_fit (refDf df : List Row) :
    transform (fit refDf (ColumnsArg.multiple [])) df = df := by
  simp [transform, fit, normalizeColumns, rowMask]

/-- C6: `fit` is deterministic: two states obtained by fitting the same
reference dataset with the same column argument have identical selected
columns and identical statistics (Q1, Q3, IQR and both cutoffs) for every
column. -/
theorem fit_deterministic (df : List Row) (cols : ColumnsArg) (s₁ s₂ : FittedState)
    (h₁ : s₁ = fit df cols) (h₂ : s₂ = fit df cols) :
    s₁.numerical_columns_ = s₂.numerical_columns_ ∧
    ∀ c : String, statsFor s₁ c = statsFor s₂ c := by
  subst h₁; subst h₂
  exact ⟨rfl, fun _ => rfl⟩

/-- C6 witness at a concrete reference dataset and column list. -/
theorem fit_deterministic_witness :
    (fit dfTen (ColumnsArg.multiple ["x"])).numerical_columns_
      = (fit dfTen (ColumnsArg.multiple ["x"])).numerical_columns_ ∧
    ∀ c : String, statsFor (fit dfTen (ColumnsArg.multiple ["x"])) c
      = statsFor (fit dfTen (ColumnsArg.multiple ["x"])) c :=
  fit_deterministic dfTen (ColumnsArg.multiple ["x"]) _ _ rfl rfl

/-- C7: calling `transform` before any `fit` fails, and the failure is
the "not fitted" usage error (the fitted attributes are absent), not a
success and not an unrelated failure. -/
theorem transform_before_fit_fails (df : List Row) :
    transformCall none df = Except.error TransformError.notFitted := rfl

/-- C8: in the step semantics of the estimator, a fitted state is an
immutable value: `transform` consumes the state read-only (the state
component of its step is unchanged), and re-fitting constructs its result
from the new arguments alone, independent of any previously held state,
so a state captured from an earlier `fit` is never altered by later `fit`
or `transform` calls. -/
theorem fitted_state_immutable :
    (∀ (st₁ st₂ : Option FittedState) (df : List Row) (cols : ColumnsArg),
      fitCall st₁ df cols = fitCall st₂ df cols) ∧
    (∀ (st : Option FittedState) (df : List Row), (transformStep st df).1 = st) ∧
    (∀ (dfA : List Row) (colsA : ColumnsArg) (st : Option FittedState)
        (dfB : List Row) (colsB : ColumnsArg),
      fitCall st dfB colsB = some (fit dfB colsB) ∧
      fit dfA colsA = fit dfA colsA) :=
  ⟨fun _ _ _ _ => rfl, fun _ _ => rfl, fun _ _ _ _ _ => ⟨rfl, rfl⟩⟩

/-- C9: a row with a missing value on at least one selected column is
excluded from the result of `transform`: the range comparison on a
missing value is false, so the combined keep decision is false. -/
theorem missing_value_excluded (s : FittedState) (df : List Row) (r : Row) (c : String)
    (hc : c ∈ s.numerical_columns_) (hmiss : getVal r c = none) :
    r ∉ transform s df := by
  intro hmem
  rw [transform, List.mem_filter] at hmem
  obtain ⟨v, hv, -⟩ := (rowMask_eq_true_iff s r).1 hmem.2 c hc
  rw [hmiss] at hv
  exact Option.noConfusion hv

/-- C9 witness: the row with a missing `y` value is excluded. -/
theorem missing_value_excluded_witness : rowMissY ∉ transform sInt dfInt :=
  missing_value_excluded sInt dfInt rowMissY "y" (by decide) rfl

end HeartDisease

namespace HeartDisease

/-- The inner loop over `j` for one value of `i`: a guarded `filterMap`
is pairing with `i`, filtering by the threshold test, and mapping to the
labelled triple. -/
lemma corr_pairs_inner_eq (cm : CorrMatrix) (t : ℚ) (i : ℕ) (l : List ℕ) :
    l.filterMap (fun j =>
        if |cm.entry i j| ≥ t then
          some (cm.columns.getD i "", cm.columns.getD j "", cm.entry i j)
        else none)
      = ((l.map (fun j => (i, j))).filter
          (fun p => decide (|cm.entry p.1 p.2| ≥ t))).map
          (fun p => (cm.columns.getD p.1 "", cm.columns.getD p.2 "", cm.entry p.1 p.2)) := by
  induction l with
  | nil => rfl
  | cons j l ih =>
    simp only [ge_iff_le, List.getD_eq_getElem?_getD] at ih ⊢
    by_cases h : t ≤ |cm.entry i j| <;>
      simp [List.filterMap_cons, List.filter_cons, h, ih]

/-- Filtering and mapping distribute over `flatMap`. -/
lemma filter_map_flatMap {α β γ : Type} (l : List α) (g : α → List β)
    (p : β → Bool) (f : β → γ) :
    ((l.flatMap g).filter p).map f = l.flatMap (fun a => ((g a).filter p).map f) := by
  induction l with
  | nil => rfl
  | cons a l ih => simp [List.flatMap_cons, List.filter_append, ih]

/-- The accumulated pair list is the row-major strict-upper-triangle
enumeration, filtered by the threshold test and mapped to labelled
triples. -/
lemma corr_pairs_eq (cm : CorrMatrix) (t : ℚ) :
    corr_pairs cm t
      = ((upperTrianglePairs cm.columns.length).filter
          (fun p => decide (|cm.entry p.1 p.2| ≥ t))).map
          (fun p => (cm.columns.getD p.1 "", cm.columns.getD p.2 "", cm.entry p.1 p.2)) := by
  rw [corr_pairs, upperTrianglePairs, filter_map_flatMap]
  congr 1
  funext i
  exact corr_pairs_inner_eq cm t i _

/-- Membership in the strict upper triangle enumeration. -/
lemma mem_upperTrianglePairs (n i j : ℕ) :
    (i, j) ∈ upperTrianglePairs n ↔ i < j ∧ j < n := by
  simp only [upperTrianglePairs, List.mem_flatMap, List.mem_map, List.mem_range,
    List.mem_range'_1, Prod.mk.injEq]
  constructor
  · rintro ⟨a, ha, b, ⟨hb1, hb2⟩, rfl, rfl⟩
    omega
  · rintro ⟨hij, hjn⟩
    exact ⟨i, by omega, j, by omega, rfl, rfl⟩

end HeartDisease

namespace HeartDisease

/-- C10: `plot_high_correlation_scatter` returns exactly the triples
`(column_i, column_j, r)` of the strict upper triangle (`i < j`,
enumerated row-major) of the given correlation matrix whose value
satisfies `|r| ≥ threshold`, with columns and value taken unmodified from
the matrix, and returns the empty list when no pair meets the
threshold. -/
theorem high_correlation_pairs_spec (cm : CorrMatrix) (t : ℚ) :
    plot_high_correlation_scatter cm t
      = ((upperTrianglePairs cm.columns.length).filter
          (fun p => decide (|cm.entry p.1 p.2| ≥ t))).map
          (fun p => (cm.columns.getD p.1 "", cm.columns.getD p.2 "", cm.entry p.1 p.2)) ∧
    (∀ i j : ℕ, (i, j) ∈ upperTrianglePairs cm.columns.length ↔
        i < j ∧ j < cm.columns.length) ∧
    ((∀ p ∈ upperTrianglePairs cm.columns.length, |cm.entry p.1 p.2| < t) →
        plot_high_correlation_scatter cm t = []) := by
  have hmain : plot_high_correlation_scatter cm t
      = ((upperTrianglePairs cm.columns.length).filter
          (fun p => decide (|cm.entry p.1 p.2| ≥ t))).map
          (fun p => (cm.columns.getD p.1 "", cm.columns.getD p.2 "", cm.entry p.1 p.2)) := by
    rw [plot_high_correlation_scatter, ← corr_pairs_eq]
    cases h : corr_pairs cm t <;> simp [h]
  refine ⟨hmain, fun i j => mem_upperTrianglePairs _ i j, fun hall => ?_⟩
  rw [hmain]
  have : (upperTrianglePairs cm.columns.length).filter
      (fun p => decide (|cm.entry p.1 p.2| ≥ t)) = [] := by
    rw [List.filter_eq_nil_iff]
    intro p hp
    simpa using not_le.mpr (hall p hp)
  rw [this]
  rfl

/-- C10 witness: a 2×2 identity-like correlation matrix has no
off-diagonal pair with absolute correlation at least 1, so the function
returns the empty list. -/
theorem high_correlation_pairs_spec_witness :
    plot_high_correlation_scatter cmId 1 = [] :=
  (high_correlation_pairs_spec cmId 1).2.2 (by decide)

end HeartDisease
